import Mathlib

/-!
Verification development for the ASCII terminal video player
(package ascii_video: converter.py and core.py).

The pure arithmetic of the source is embedded over ℚ (Python floats are
modelled as exact rationals; every numeric literal appearing in the source
is exactly representable in binary floating point or harmless to the
claims proved here).  Python's int(·) conversion truncates toward zero and
is modelled by pyInt.  External OpenCV kernels (Sobel, CLAHE, bilateral,
guided filter, pixel content of cv2.resize, cvtColor) are collaborators
outside the core per the specification and are modelled as environment
parameters; everything else follows the source line by line.
-/

namespace AsciiVideo

/-- Python's int(x) conversion: truncation toward zero. -/
def pyInt (q : ℚ) : ℤ := if 0 ≤ q then ⌊q⌋ else ⌈q⌉

/-- ASCIIStyle.MINIMAL from converter.py line 16: the 10-character palette. -/
def MINIMAL : String := " .:-=+*#%@"

/-- converter.py line 442: the "standard" quality mode string. -/
def standardMode : String := "standard"

/-- converter.py line 454: the "auto" quality mode string. -/
def autoMode : String := "auto"

/-- converter.py line 467: the "8k" quality mode string. -/
def mode8k : String := "8k"

/-- converter.py line 469: the "6k" quality mode string. -/
def mode6k : String := "6k"

/-- converter.py line 471: the "4k" quality mode string. -/
def mode4k : String := "4k"

/-- Newline separator used by convert_frame_to_ascii (line 430). -/
def newlineStr : String := "\n"

/-- Character index computation of convert_frame_chunk (converter.py lines
353-354): indices = (row * (char_count - 1)).astype(np.int32) followed by
np.clip(indices, 0, char_count - 1).  The float-to-int32 cast truncates
toward zero. -/
def mapIndex (palette : List Char) (v : ℚ) : ℕ :=
  (max 0 (min (pyInt (v * ((palette.length : ℚ) - 1))) ((palette.length : ℤ) - 1))).toNat

/-- The character emitted for one brightness value: self._char_map[index]
(converter.py line 355). -/
def mapChar (palette : List Char) (v : ℚ) : Char :=
  palette.getD (mapIndex palette v) ' '

/-- Modelled from the spec (section 4.4 Character Mapper): index =
round(v × (len(palette)-1)) clamped to [0, len(palette)-1].  Stated for
comparison with the source computation mapIndex. -/
def specRoundIndex (palette : List Char) (v : ℚ) : ℕ :=
  (max 0 (min (round (v * ((palette.length : ℚ) - 1))) ((palette.length : ℤ) - 1))).toNat

/-- Modelled from the spec: the character the spec's rounding formula
selects, palette[specRoundIndex]. -/
def specRoundChar (palette : List Char) (v : ℚ) : Char :=
  palette.getD (specRoundIndex palette v) ' '

/-- ASCIIConverter.convert_frame_chunk (converter.py lines 339-357):
maps each row of a brightness chunk to a string of palette characters.
The start_row argument is received as in the source and, as in the source
body, does not influence the result. -/
def convert_frame_chunk (palette : List Char) (brightness_chunk : List (List ℚ))
    (start_row : ℕ) : List String :=
  brightness_chunk.map (fun row => String.mk (row.map (fun v => mapChar palette v)))

/-- The chunk slicing of convert_frame_to_ascii (converter.py lines
417-420): for i in range(0, height, chunk_size): chunk =
brightness[i:i + chunk_size].  Each element carries its start row i,
which the source passes to executor.submit(convert_frame_chunk, chunk, i).
Slicing a list beyond its end yields the empty slice, as in numpy. -/
def threadedChunks {α : Type} (chunk_size height i : ℕ) (l : List α) :
    List (ℕ × List α) :=
  if h : 0 < chunk_size ∧ i < height then
    (i, l.take chunk_size) :: threadedChunks chunk_size height (i + chunk_size) (l.drop chunk_size)
  else []
termination_by height - i
decreasing_by omega

/-- The multi-threaded branch of convert_frame_to_ascii (converter.py lines
412-425): chunks are submitted in row order and the futures' results are
concatenated in submission order. -/
def convertThreadedLines (palette : List Char) (brightness : List (List ℚ))
    (height chunk_size : ℕ) : List String :=
  ((threadedChunks chunk_size height 0 brightness).map
    (fun chunk => convert_frame_chunk palette chunk.2 chunk.1)).flatten

/-- ConversionAlgorithm enum (converter.py lines 24-33). -/
inductive ConversionAlgorithm : Type where
  | luminance
  | average
  | lightness
  | custom_weighted
  | edge_enhanced
  | super_resolution
  | adaptive_4k
  | neural_upscale
deriving DecidableEq

/-- One BGR pixel as stored by OpenCV: channel 0 = blue, 1 = green,
2 = red (converter.py indexes pixel_values[:, :, 2] for red). -/
structure Pixel : Type where
  b : ℚ
  g : ℚ
  r : ℚ

/-- A pixel frame: rows of BGR pixels. -/
def Frame : Type := List (List Pixel)

/-- The OpenCV-based enhancement strategies of converter.py lines 114-203
(_edge_enhanced_brightness, _super_resolution_brightness,
_adaptive_4k_brightness, _neural_upscale_brightness).  These call cv2
kernels (Sobel, CLAHE, bilateral filter, morphology, box filters), which
the specification treats as external pluggable collaborators; they are
modelled as environment functions. -/
structure EnhanceEnv : Type where
  edge_enhanced : Frame → List (List ℚ)
  super_resolution : Frame → List (List ℚ)
  adaptive_4k : Frame → List (List ℚ)
  neural_upscale : Frame → List (List ℚ)

/-- ASCIIConverter.calculate_brightness (converter.py lines 71-112).
The four closed-form strategies are embedded exactly; the enhancement
variants dispatch to the environment. -/
def calculate_brightness (env : EnhanceEnv) (algorithm : ConversionAlgorithm)
    (pixel_values : Frame) : List (List ℚ) :=
  match algorithm with
  | ConversionAlgorithm.luminance =>
      pixel_values.map (List.map (fun p =>
        2126/10000 * p.r + 7152/10000 * p.g + 722/10000 * p.b))
  | ConversionAlgorithm.average =>
      pixel_values.map (List.map (fun p => (p.b + p.g + p.r) / 3))
  | ConversionAlgorithm.lightness =>
      pixel_values.map (List.map (fun p =>
        (max (max p.b p.g) p.r + min (min p.b p.g) p.r) / 2))
  | ConversionAlgorithm.custom_weighted =>
      pixel_values.map (List.map (fun p =>
        3/10 * p.r + 59/100 * p.g + 11/100 * p.b))
  | ConversionAlgorithm.edge_enhanced => env.edge_enhanced pixel_values
  | ConversionAlgorithm.super_resolution => env.super_resolution pixel_values
  | ConversionAlgorithm.adaptive_4k => env.adaptive_4k pixel_values
  | ConversionAlgorithm.neural_upscale => env.neural_upscale pixel_values

/-- Dimension outcome of _edge_preserving_resize (converter.py lines
295-319): cv2.resize to (target_width, target_height) followed by
dimension-preserving guided filtering, so the output raster has exactly
the target size. -/
def edge_preserving_resize_dims (target_width target_height : ℕ) : ℕ × ℕ :=
  (target_width, target_height)

/-- The step computation of _super_resolution_resize (converter.py lines
250-256): while current < target, double toward the target.  The Python
loop has no fuel; the fuel here is an upper bound on its iteration count
for every input on which the Python loop terminates, and the caller's
final exact resize (lines 264-266) makes the result independent of it. -/
def srLoopDims (target_width target_height : ℕ) : ℕ → ℕ × ℕ → ℕ × ℕ
  | 0, c => c
  | fuel + 1, c =>
    if c.1 < target_width ∨ c.2 < target_height then
      srLoopDims target_width target_height fuel
        (min (c.1 * 2) target_width, min (c.2 * 2) target_height)
    else c

/-- Dimension outcome of _super_resolution_resize (converter.py lines
244-268): multi-step upscaling, then a final cv2.resize to the exact
target whenever the stepped size differs from it. -/
def super_resolution_resize_dims (frame_width frame_height target_width target_height : ℕ) :
    ℕ × ℕ :=
  let c := srLoopDims target_width target_height (target_width + target_height)
    (frame_width, frame_height)
  if c.1 ≠ target_width ∨ c.2 ≠ target_height then (target_width, target_height) else c

/-- Dimension outcome of ASCIIConverter.resize_frame_smart (converter.py
lines 205-242): character-aspect correction of the requested size, then
strategy dispatch on the maximal scale factor (each strategy produces its
target size exactly). -/
def resize_frame_smart_dims (frame_width frame_height target_width target_height : ℕ) :
    ℕ × ℕ :=
  let frame_aspect : ℚ := (frame_width : ℚ) / frame_height
  let adjusted_height : ℕ :=
    (pyInt ((target_width : ℚ) / frame_aspect * (1/2))).toNat
  let p : ℕ × ℕ :=
    if target_height < adjusted_height then
      ((pyInt ((target_height : ℚ) * frame_aspect / (1/2))).toNat, target_height)
    else (target_width, adjusted_height)
  let scale_factor_x : ℚ := (p.1 : ℚ) / frame_width
  let scale_factor_y : ℚ := (p.2 : ℚ) / frame_height
  let max_scale_factor := max scale_factor_x scale_factor_y
  if 2 < max_scale_factor then
    super_resolution_resize_dims frame_width frame_height p.1 p.2
  else if 3/2 < max_scale_factor then
    edge_preserving_resize_dims p.1 p.2
  else p

/-- Quality multiplier selection of get_optimal_dimensions (converter.py
lines 453-474). -/
def qualityMultiplier (quality_mode : String) (frame_width frame_height : ℕ) : ℚ :=
  if quality_mode = autoMode then
    let input_pixels := frame_width * frame_height
    if 8294400 ≤ input_pixels then 3
    else if 2073600 ≤ input_pixels then 5/2
    else if 921600 ≤ input_pixels then 2
    else 3/2
  else if quality_mode = mode8k then 4
  else if quality_mode = mode6k then 7/2
  else if quality_mode = mode4k then 3
  else 1

/-- Base terminal fit of get_optimal_dimensions (converter.py lines
476-484): the branch condition compares the terminal aspect against
frame_aspect * char_aspect exactly as written in the source. -/
def planBase (terminal_width terminal_height : ℤ) (frame_height frame_width : ℕ) :
    ℤ × ℤ :=
  let frame_aspect : ℚ := (frame_width : ℚ) / frame_height
  let char_aspect : ℚ := 1/2
  if frame_aspect * char_aspect < (terminal_width : ℚ) / terminal_height then
    let base_height : ℤ := terminal_height - 2
    (pyInt ((base_height : ℚ) * frame_aspect / char_aspect), base_height)
  else
    let base_width : ℤ := terminal_width - 2
    (base_width, pyInt ((base_width : ℚ) / frame_aspect * char_aspect))

/-- ASCIIConverter.get_optimal_dimensions (converter.py lines 432-497).
frame_shape is (height, width) as in the source. -/
def get_optimal_dimensions (terminal_width terminal_height : ℤ)
    (frame_shape : ℕ × ℕ) (quality_mode : String) : ℤ × ℤ :=
  let frame_height := frame_shape.1
  let frame_width := frame_shape.2
  let quality_multiplier := qualityMultiplier quality_mode frame_width frame_height
  let base := planBase terminal_width terminal_height frame_height frame_width
  let enhanced_width := pyInt ((base.1 : ℚ) * quality_multiplier)
  let enhanced_height := pyInt ((base.2 : ℚ) * quality_multiplier)
  let max_width := min (terminal_width * 4) 1000
  let max_height := min (terminal_height * 4) 800
  (max 1 (min enhanced_width max_width), max 1 (min enhanced_height max_height))

/-- Total number of pixel samples in a frame, matching numpy's
frame.size = 0 test up to the constant channel factor (converter.py
line 376). -/
def frameSize (f : Frame) : ℕ := (f.map (fun row => row.length)).sum

/-- np.clip(·, 0, 1) on a single value. -/
def clip01 (q : ℚ) : ℚ := max 0 (min q 1)

/-- Converter-level configuration of ASCIIConverter.__init__ (converter.py
lines 41-69): the palette (style.value as a character list), the brightness
algorithm, the threading switch and the worker count. -/
structure ConverterConfig : Type where
  palette : List Char
  algorithm : ConversionAlgorithm
  use_threading : Bool
  max_workers : ℕ

/-- Environment for the externally computed stages of
convert_frame_to_ascii: the pixel content produced by the cv2-backed
resize strategies, cv2.cvtColor grayscale reduction, and the
floating-point np.power(·, 0.8) gamma curve (converter.py lines 389-408). -/
structure ConvEnv : Type where
  enhance : EnhanceEnv
  resizedContent : Frame → ℕ → ℕ → Frame
  cvtGray : Frame → List (List ℚ)
  pow08 : ℚ → ℚ

/-- ASCIIConverter.convert_frame_to_ascii (converter.py lines 359-430). -/
def convert_frame_to_ascii (env : ConvEnv) (cfg : ConverterConfig)
    (frame : Option Frame) (width0 : ℕ) (height0 : Option ℕ)
    (enhance_contrast : Bool) : String :=
  match frame with
  | none => ""
  | some f =>
    if frameSize f = 0 then ""
    else
      let frame_height := f.length
      let frame_width := (f.headD []).length
      let height1 : ℕ :=
        match height0 with
        | some h => h
        | none => (pyInt ((frame_height : ℚ) * width0 / frame_width * (1/2))).toNat
      let width := max 1 width0
      let height := max 1 height1
      let dims := resize_frame_smart_dims frame_width frame_height width height
      let resized_frame := env.resizedContent f dims.1 dims.2
      let brightness0 :=
        if cfg.algorithm = ConversionAlgorithm.luminance then
          calculate_brightness env.enhance ConversionAlgorithm.luminance resized_frame
        else env.cvtGray resized_frame
      let brightness1 := brightness0.map (List.map (fun q => q / 255))
      let brightness :=
        if enhance_contrast then
          brightness1.map (List.map (fun q => clip01 (env.pow08 q)))
        else brightness1
      let ascii_lines :=
        if cfg.use_threading ∧ 50 < height then
          convertThreadedLines cfg.palette brightness height
            (max 1 (height / cfg.max_workers))
        else convert_frame_chunk cfg.palette brightness 0
      String.intercalate newlineStr ascii_lines

/-- queue.Queue put semantics as used by _buffer_frames: maxsize ≤ 0 means
an unbounded queue; a put on a full bounded queue raises queue.Full after
its timeout and the caller drops the frame (core.py lines 294-296 and
306-310). -/
def qput {α : Type} (maxsize : ℕ) (buf : List α) (x : α) : List α :=
  if maxsize = 0 ∨ buf.length < maxsize then buf ++ [x] else buf

/-- The video-producer enqueue of _buffer_frames (core.py lines 303-310):
guarded by qsize() < buffer_size, then put with drop-on-Full. -/
def video_enqueue {α : Type} (buffer_size : ℕ) (buf : List α) (x : α) : List α :=
  if buf.length < buffer_size then qput buffer_size buf x else buf

/-- The still-image enqueue of _buffer_frames (core.py lines 290-296):
guarded only by qsize() == 0, then put with drop-on-Full. -/
def image_enqueue {α : Type} (buffer_size : ℕ) (buf : List α) (x : α) : List α :=
  if buf.length = 0 then qput buffer_size buf x else buf

/-- One observable frame-buffer operation: a producer enqueue (video or
image path) or a consumer dequeue (frame_buffer.get in _display_frames). -/
inductive BufOp (α : Type) : Type where
  | videoEnq (x : α)
  | imageEnq (x : α)
  | deq

/-- Effect of one buffer operation on the queue contents.  queue.Queue is
internally locked, so any concurrent interleaving of the two loops
linearizes into a sequence of these steps. -/
def buffer_step {α : Type} (buffer_size : ℕ) (buf : List α) : BufOp α → List α
  | BufOp.videoEnq x => video_enqueue buffer_size buf x
  | BufOp.imageEnq x => image_enqueue buffer_size buf x
  | BufOp.deq => buf.tail

/-- The buffer contents after an interleaving of operations, starting from
the empty queue created in __init__ (core.py line 62). -/
def buffer_run {α : Type} (buffer_size : ℕ) (ops : List (BufOp α)) : List α :=
  ops.foldl (buffer_step buffer_size) []

/-- ASCIIVideoPlayer.change_speed (core.py lines 590-600):
playback_speed = max(0.1, min(5.0, playback_speed + delta)). -/
def change_speed (playback_speed delta : ℚ) : ℚ :=
  max (1/10) (min 5 (playback_speed + delta))

/-- Playback speed after a sequence of change_speed calls, starting from
the initial speed 1.0 set in __init__ (core.py line 59). -/
def run_speed_controls (deltas : List ℚ) : ℚ :=
  deltas.foldl change_speed 1

/-- The image extension set of load_media (core.py line 114). -/
def imageExtensions : List String :=
  [ ".jpg", ".jpeg", ".png", ".bmp", ".tiff", ".tif", ".webp", ".gif", ".ico",
    ".ppm", ".pgm", ".pbm" ]

/-- Metadata cv2.VideoCapture exposes for an opened video (core.py lines
181-186). -/
structure VideoMeta : Type where
  frame_count : ℕ
  fps : ℚ
  width : ℕ
  height : ℕ

/-- External collaborators of load_media: the filesystem existence test,
pathlib suffix extraction, cv2.imread, cv2.VideoCapture (none when
isOpened() is false) and the terminal size query. -/
structure MediaEnv : Type where
  pathExists : String → Bool
  pathSuffix : String → String
  imread : String → Option Frame
  openVideo : String → Option VideoMeta
  terminalSize : ℤ × ℤ

/-- The playback-relevant fields of ASCIIVideoPlayer (core.py lines
53-84). -/
structure PlayerState : Type where
  is_playing : Bool
  is_paused : Bool
  current_frame : ℕ
  total_frames : ℕ
  video_fps : ℚ
  playback_speed : ℚ
  media_path : Option String
  is_image : Bool
  capOpened : Bool
  static_image : Option Frame
  ascii_width : ℤ
  ascii_height : ℤ
  quality_mode : String
  hq_video : Bool
  lock_dimensions : Bool
  char_px_w : ℕ
  char_px_h : ℕ

/-- ASCIIVideoPlayer._compute_1440p_ascii_size (core.py lines 242-266). -/
def compute_1440p_ascii_size (env : MediaEnv) (st : PlayerState)
    (frame_shape : ℕ × ℕ) : ℤ × ℤ :=
  let frame_h := frame_shape.1
  let frame_w := frame_shape.2
  let frame_aspect : ℚ := (frame_w : ℚ) / (max 1 frame_h : ℕ)
  let target_cols : ℤ := max 1 (pyInt (2560 / (st.char_px_w : ℚ)))
  let target_rows : ℤ := max 1 (pyInt (1440 / (st.char_px_h : ℚ)))
  let h_from_w : ℤ :=
    pyInt (((target_cols : ℚ) / frame_aspect) * ((st.char_px_h : ℚ) / st.char_px_w))
  let cr : ℤ × ℤ :=
    if h_from_w ≤ target_rows then (target_cols, h_from_w)
    else (pyInt (((target_rows : ℚ) * frame_aspect) * ((st.char_px_w : ℚ) / st.char_px_h)),
          target_rows)
  (max 1 (min cr.1 (env.terminalSize.1 - 2)), max 1 (min cr.2 (env.terminalSize.2 - 2)))

/-- ASCIIVideoPlayer._load_image (core.py lines 135-168). -/
def load_image (env : MediaEnv) (st : PlayerState) (image_path : String) :
    Bool × PlayerState :=
  match env.imread image_path with
  | none => (false, st)
  | some image =>
    let frame_height := image.length
    let frame_width := (image.headD []).length
    let st1 := { st with static_image := some image, total_frames := 1,
                         video_fps := 1, current_frame := 0 }
    let dims :=
      if st1.lock_dimensions then
        compute_1440p_ascii_size env st1 (frame_height, frame_width)
      else
        get_optimal_dimensions env.terminalSize.1 env.terminalSize.2
          (frame_height, frame_width) st1.quality_mode
    (true, { st1 with ascii_width := dims.1, ascii_height := dims.2 })

/-- ASCIIVideoPlayer._load_video (core.py lines 170-208).  The fps
default mirrors self.cap.get(CAP_PROP_FPS) or 30.0, and videos use
quality "standard" unless hq_video is set (line 193). -/
def load_video (env : MediaEnv) (st : PlayerState) (video_path : String) :
    Bool × PlayerState :=
  match env.openVideo video_path with
  | none => (false, { st with capOpened := false })
  | some meta =>
    let fps := if meta.fps = 0 then 30 else meta.fps
    let st1 := { st with capOpened := true, static_image := none,
                         total_frames := meta.frame_count, video_fps := fps }
    let effective_quality := if st1.hq_video then st1.quality_mode else standardMode
    let dims :=
      if st1.lock_dimensions then
        compute_1440p_ascii_size env st1 (meta.height, meta.width)
      else
        get_optimal_dimensions env.terminalSize.1 env.terminalSize.2
          (meta.height, meta.width) effective_quality
    (true, { st1 with ascii_width := dims.1, ascii_height := dims.2 })

/-- ASCIIVideoPlayer.load_media (core.py lines 97-133): a nonexistent path
returns False before any state is touched; otherwise the extension decides
between the image and video loaders. -/
def load_media (env : MediaEnv) (st : PlayerState) (media_path : String) :
    Bool × PlayerState :=
  if env.pathExists media_path then
    let file_ext := env.pathSuffix media_path
    let isImg := imageExtensions.contains file_ext
    let st1 := { st with media_path := some media_path, is_image := isImg }
    if isImg then load_image env st1 media_path else load_video env st1 media_path
  else (false, st)

/-- A trivial enhancement environment used to instantiate theorems at
concrete inputs. -/
def zeroEnhanceEnv : EnhanceEnv :=
  { edge_enhanced := fun _ => [], super_resolution := fun _ => [],
    adaptive_4k := fun _ => [], neural_upscale := fun _ => [] }

/-- A trivial conversion environment used to instantiate theorems at
concrete inputs. -/
def trivialConvEnv : ConvEnv :=
  { enhance := zeroEnhanceEnv, resizedContent := fun _ _ _ => [],
    cvtGray := fun _ => [], pow08 := fun q => q }

/-- A converter configuration with the MINIMAL palette, used to
instantiate theorems at concrete inputs. -/
def minimalConfig : ConverterConfig :=
  { palette := MINIMAL.toList, algorithm := ConversionAlgorithm.luminance,
    use_threading := true, max_workers := 4 }

/-- A media environment in which no path exists, used to instantiate
theorems at concrete inputs. -/
def emptyMediaEnv : MediaEnv :=
  { pathExists := fun _ => false, pathSuffix := fun _ => "",
    imread := fun _ => none, openVideo := fun _ => none,
    terminalSize := (80, 24) }

/-- The idle player state right after __init__ (core.py lines 53-84). -/
def idlePlayerState : PlayerState :=
  { is_playing := false, is_paused := false, current_frame := 0,
    total_frames := 0, video_fps := 30, playback_speed := 1,
    media_path := none, is_image := false, capOpened := false,
    static_image := none, ascii_width := 80, ascii_height := 24,
    quality_mode := autoMode, hq_video := false, lock_dimensions := false,
    char_px_w := 10, char_px_h := 20 }

/-- A path that exists in no media environment used for instantiation. -/
def missingPath : String := "missing.mp4"

/-- A frame with rows but zero pixels, used for instantiation. -/
def emptyRowsFrame : Frame := [[], []]

theorem pyInt_of_nonneg {q : ℚ} (h : 0 ≤ q) : pyInt q = ⌊q⌋ := if_pos h

theorem pyInt_nonpos {q : ℚ} (h : q ≤ 0) : pyInt q ≤ 0 := by
  unfold pyInt
  split_ifs with hq
  · have := Int.floor_le_floor h
    simpa using this
  · have := Int.ceil_le_ceil h
    simpa using this

theorem pyInt_mono {x y : ℚ} (h : x ≤ y) : pyInt x ≤ pyInt y := by
  unfold pyInt
  split_ifs with hx hy hy
  · exact Int.floor_le_floor h
  · exact absurd (hx.trans h) hy
  · calc ⌈x⌉ ≤ ⌈(0:ℚ)⌉ := Int.ceil_le_ceil (le_of_not_le hx)
      _ = 0 := Int.ceil_zero
      _ ≤ ⌊y⌋ := Int.floor_nonneg.mpr hy
  · exact Int.ceil_le_ceil h

/-- C1 (counterexample): for the 10-character MINIMAL palette at brightness
v = 3/4 the code emits palette[6] = the asterisk character (the float-to-int
cast truncates 6.75 down to 6), while the claimed rounding formula selects
index round(6.75) = 7, the hash character; so the emitted character is not
palette[round(v × (len-1))]. -/
theorem C1_round_formula_counterexample :
    mapChar MINIMAL.toList (3/4) = '*' ∧
    specRoundChar MINIMAL.toList (3/4) = '#' ∧
    mapChar MINIMAL.toList (3/4) ≠ specRoundChar MINIMAL.toList (3/4) := by
  refine ⟨?_, ?_, ?_⟩
  · norm_num [mapChar, mapIndex, pyInt, MINIMAL]
    rfl
  · norm_num [specRoundChar, specRoundIndex, MINIMAL, round_eq]
    rfl
  · norm_num [mapChar, specRoundChar, mapIndex, specRoundIndex, pyInt, MINIMAL, round_eq]
    decide

/-- C1 (amended): for every brightness v in [0,1] and palette of length at
least 2, the emitted character is palette[index] with index = the value
v × (len(palette)-1) truncated (floored), clamped to [0, len-1]; and for the
10-character MINIMAL palette the brightness values 0, 1/2 and 1 map to
indices 0, 4 and 9, i.e. the space, equals-sign and at-sign characters. -/
theorem C1_truncation_contract (palette : List Char) (v : ℚ)
    (hlen : 2 ≤ palette.length) (h0 : 0 ≤ v) (h1 : v ≤ 1) :
    mapIndex palette v = (⌊v * ((palette.length : ℚ) - 1)⌋).toNat ∧
    mapIndex palette v < palette.length ∧
    mapChar palette v = palette.getD ((⌊v * ((palette.length : ℚ) - 1)⌋).toNat) ' ' ∧
    mapIndex MINIMAL.toList 0 = 0 ∧
    mapIndex MINIMAL.toList (1/2) = 4 ∧
    mapIndex MINIMAL.toList 1 = 9 ∧
    mapChar MINIMAL.toList 0 = ' ' ∧
    mapChar MINIMAL.toList (1/2) = '=' ∧
    mapChar MINIMAL.toList 1 = '@' := by
  have hcast : (2:ℚ) ≤ (palette.length : ℚ) := by exact_mod_cast hlen
  have hn0 : (0:ℚ) ≤ (palette.length : ℚ) - 1 := by linarith
  have hx0 : 0 ≤ v * ((palette.length : ℚ) - 1) := mul_nonneg h0 hn0
  have hfl0 : 0 ≤ ⌊v * ((palette.length : ℚ) - 1)⌋ := Int.floor_nonneg.mpr hx0
  have hxle : v * ((palette.length : ℚ) - 1) ≤ (palette.length : ℚ) - 1 :=
    mul_le_of_le_one_left hn0 h1
  have hflle : ⌊v * ((palette.length : ℚ) - 1)⌋ ≤ (palette.length : ℤ) - 1 := by
    have hfloor : ⌊(palette.length : ℚ) - 1⌋ = (palette.length : ℤ) - 1 := by
      have heq : ((palette.length : ℚ) - 1) = (((palette.length : ℤ) - 1 : ℤ) : ℚ) := by
        push_cast
        ring
      rw [heq, Int.floor_intCast]
    exact (Int.floor_le_floor hxle).trans (le_of_eq hfloor)
  have hidx : mapIndex palette v = (⌊v * ((palette.length : ℚ) - 1)⌋).toNat := by
    unfold mapIndex
    rw [pyInt_of_nonneg hx0, min_eq_left hflle, max_eq_right hfl0]
  refine ⟨hidx, ?_, ?_, ?_, ?_, ?_, ?_, ?_, ?_⟩
  · rw [hidx]
    omega
  · unfold mapChar
    rw [hidx]
  · norm_num [mapIndex, pyInt, MINIMAL]
  · norm_num [mapIndex, pyInt, MINIMAL]
    rfl
  · norm_num [mapIndex, pyInt, MINIMAL]
    rfl
  · norm_num [mapChar, mapIndex, pyInt, MINIMAL]
  · norm_num [mapChar, mapIndex, pyInt, MINIMAL]
    rfl
  · norm_num [mapChar, mapIndex, pyInt, MINIMAL]
    rfl

/-- C1 witness: the amended contract instantiated at the MINIMAL palette
and brightness 1. -/
theorem C1_truncation_contract_witness :
    2 ≤ MINIMAL.toList.length ∧ mapIndex MINIMAL.toList 1 < MINIMAL.toList.length :=
  ⟨by decide, (C1_truncation_contract MINIMAL.toList 1 (by decide) zero_le_one le_rfl).2.1⟩

/-- C2 (code bug): for a 1920×1080 frame, a 120×40 terminal and quality
"standard", get_optimal_dimensions returns (135, 38).  The width 135
exceeds the claimed bound 118 and even the 120-column terminal: the branch
condition at converter.py line 477 compares the terminal aspect against
frame_aspect × char_aspect instead of frame_aspect ÷ char_aspect, so the
height-limited branch is taken although width is the limiting dimension,
contradicting the adjacent comment that the base dimensions fit in the
terminal. -/
theorem qualityMultiplier_standard (fw fh : ℕ) :
    qualityMultiplier standardMode fw fh = 1 := by
  unfold qualityMultiplier standardMode autoMode mode8k mode6k mode4k
  rw [if_neg (by decide), if_neg (by decide), if_neg (by decide), if_neg (by decide)]

theorem qualityMultiplier_8k (fw fh : ℕ) : qualityMultiplier mode8k fw fh = 4 := by
  unfold qualityMultiplier mode8k autoMode
  rw [if_neg (by decide), if_pos rfl]

theorem qualityMultiplier_6k (fw fh : ℕ) : qualityMultiplier mode6k fw fh = 7/2 := by
  unfold qualityMultiplier mode6k autoMode mode8k
  rw [if_neg (by decide), if_neg (by decide), if_pos rfl]

theorem qualityMultiplier_4k (fw fh : ℕ) : qualityMultiplier mode4k fw fh = 3 := by
  unfold qualityMultiplier mode4k autoMode mode8k mode6k
  rw [if_neg (by decide), if_neg (by decide), if_neg (by decide), if_pos rfl]

theorem C2_planner_scenario_overflow :
    get_optimal_dimensions 120 40 (1080, 1920) standardMode = (135, 38) ∧
    ¬ (get_optimal_dimensions 120 40 (1080, 1920) standardMode).1 ≤ 118 := by
  have h : get_optimal_dimensions 120 40 (1080, 1920) standardMode = (135, 38) := by
    norm_num [get_optimal_dimensions, planBase, pyInt, qualityMultiplier_standard]
  refine ⟨h, ?_⟩
  rw [h]
  norm_num

theorem qualityMultiplier_nonneg (quality_mode : String) (fw fh : ℕ) :
    0 ≤ qualityMultiplier quality_mode fw fh := by
  unfold qualityMultiplier
  dsimp only
  split_ifs <;> norm_num

theorem qualityMultiplier_auto_lowest (fw fh : ℕ) (hpix : fw * fh < 921600) :
    qualityMultiplier autoMode fw fh = 3/2 := by
  unfold qualityMultiplier
  rw [if_pos rfl, if_neg (by omega), if_neg (by omega), if_neg (by omega)]

/-- Monotonicity of one output coordinate in the quality multiplier: the
final value max 1 (min (int(base × m)) cap) never decreases as m grows
(for nonnegative m; a negative base collapses both sides to 1). -/
theorem planfinal_mono (b cap : ℤ) (m1 m2 : ℚ) (h0 : 0 ≤ m1) (h12 : m1 ≤ m2) :
    max 1 (min (pyInt ((b : ℚ) * m1)) cap) ≤ max 1 (min (pyInt ((b : ℚ) * m2)) cap) := by
  rcases le_or_lt 0 b with hb | hb
  · have hbq : (0:ℚ) ≤ (b : ℚ) := by exact_mod_cast hb
    have hm : (b : ℚ) * m1 ≤ (b : ℚ) * m2 := mul_le_mul_of_nonneg_left h12 hbq
    exact max_le_max le_rfl (min_le_min (pyInt_mono hm) le_rfl)
  · have hbq : (b : ℚ) ≤ 0 := by exact_mod_cast hb.le
    have hm1 : (b : ℚ) * m1 ≤ 0 := mul_nonpos_iff.mpr (Or.inr ⟨hbq, h0⟩)
    have hm2 : (b : ℚ) * m2 ≤ 0 := mul_nonpos_iff.mpr (Or.inr ⟨hbq, h0.trans h12⟩)
    have p1 : pyInt ((b : ℚ) * m1) ≤ 0 := pyInt_nonpos hm1
    have p2 : pyInt ((b : ℚ) * m2) ≤ 0 := pyInt_nonpos hm2
    have e1 : max 1 (min (pyInt ((b : ℚ) * m1)) cap) = 1 :=
      max_eq_left ((min_le_left _ _).trans (by omega))
    have e2 : max 1 (min (pyInt ((b : ℚ) * m2)) cap) = 1 :=
      max_eq_left ((min_le_left _ _).trans (by omega))
    rw [e1, e2]

/-- Componentwise comparison of planner outputs for two quality modes whose
multipliers are ordered. -/
theorem get_optimal_dimensions_mono_mult (tw th : ℤ) (fh fw : ℕ) (q1 q2 : String)
    (h12 : qualityMultiplier q1 fw fh ≤ qualityMultiplier q2 fw fh) :
    (get_optimal_dimensions tw th (fh, fw) q1).1 ≤ (get_optimal_dimensions tw th (fh, fw) q2).1 ∧
    (get_optimal_dimensions tw th (fh, fw) q1).2 ≤ (get_optimal_dimensions tw th (fh, fw) q2).2 := by
  unfold get_optimal_dimensions
  exact ⟨planfinal_mono _ _ _ _ (qualityMultiplier_nonneg q1 fw fh) h12,
         planfinal_mono _ _ _ _ (qualityMultiplier_nonneg q1 fw fh) h12⟩

/-- C7: for every frame size (with nonzero sides) and every terminal
geometry (with nonzero height, so the source's divisions are defined), the
planner output is at least (1,1) for every quality mode; and whenever the
input is below the 720p pixel threshold — the inputs on which "auto"
selects its lowest multiplier 1.5, as the claim's "auto-lowest" tier
requires — the output grows componentwise along the tier chain
standard ≤ auto-lowest ≤ 4k ≤ 6k ≤ 8k, matching the multipliers
1 ≤ 1.5 ≤ 3 ≤ 3.5 ≤ 4. -/
theorem C7_planner_bounds_and_tier_monotonicity (tw th : ℤ) (fw fh : ℕ)
    (hfw : 1 ≤ fw) (hfh : 1 ≤ fh) (hth : 1 ≤ th) :
    (∀ quality_mode : String,
      1 ≤ (get_optimal_dimensions tw th (fh, fw) quality_mode).1 ∧
      1 ≤ (get_optimal_dimensions tw th (fh, fw) quality_mode).2) ∧
    (fw * fh < 921600 →
      ((get_optimal_dimensions tw th (fh, fw) standardMode).1 ≤
          (get_optimal_dimensions tw th (fh, fw) autoMode).1 ∧
       (get_optimal_dimensions tw th (fh, fw) standardMode).2 ≤
          (get_optimal_dimensions tw th (fh, fw) autoMode).2) ∧
      ((get_optimal_dimensions tw th (fh, fw) autoMode).1 ≤
          (get_optimal_dimensions tw th (fh, fw) mode4k).1 ∧
       (get_optimal_dimensions tw th (fh, fw) autoMode).2 ≤
          (get_optimal_dimensions tw th (fh, fw) mode4k).2) ∧
      ((get_optimal_dimensions tw th (fh, fw) mode4k).1 ≤
          (get_optimal_dimensions tw th (fh, fw) mode6k).1 ∧
       (get_optimal_dimensions tw th (fh, fw) mode4k).2 ≤
          (get_optimal_dimensions tw th (fh, fw) mode6k).2) ∧
      ((get_optimal_dimensions tw th (fh, fw) mode6k).1 ≤
          (get_optimal_dimensions tw th (fh, fw) mode8k).1 ∧
       (get_optimal_dimensions tw th (fh, fw) mode6k).2 ≤
          (get_optimal_dimensions tw th (fh, fw) mode8k).2)) := by
  constructor
  · intro quality_mode
    unfold get_optimal_dimensions
    exact ⟨le_max_left _ _, le_max_left _ _⟩
  · intro hpix
    refine ⟨?_, ?_, ?_, ?_⟩
    · refine get_optimal_dimensions_mono_mult tw th fh fw _ _ ?_
      rw [qualityMultiplier_standard, qualityMultiplier_auto_lowest fw fh hpix]
      norm_num
    · refine get_optimal_dimensions_mono_mult tw th fh fw _ _ ?_
      rw [qualityMultiplier_auto_lowest fw fh hpix, qualityMultiplier_4k]
      norm_num
    · refine get_optimal_dimensions_mono_mult tw th fh fw _ _ ?_
      rw [qualityMultiplier_4k, qualityMultiplier_6k]
      norm_num
    · refine get_optimal_dimensions_mono_mult tw th fh fw _ _ ?_
      rw [qualityMultiplier_6k, qualityMultiplier_8k]
      norm_num

/-- C7 witness: the unconditional bounds applied at a 120×40 terminal and
the spec's 1920×1080 frame (above the 720p threshold), together with the
tier chain applied at a 100×100 frame (below the threshold). -/
theorem C7_planner_bounds_and_tier_monotonicity_witness :
    (1 ≤ (1920:ℕ) ∧ 1 ≤ (1080:ℕ) ∧ 1 ≤ (40:ℤ) ∧ 100 * 100 < 921600) ∧
    1 ≤ (get_optimal_dimensions 120 40 (1080, 1920) mode4k).1 ∧
    (get_optimal_dimensions 120 40 (100, 100) standardMode).1 ≤
      (get_optimal_dimensions 120 40 (100, 100) autoMode).1 :=
  ⟨⟨by decide, by decide, by decide, by decide⟩,
   ((C7_planner_bounds_and_tier_monotonicity 120 40 1920 1080 (by decide) (by decide)
      (by decide)).1 mode4k).1,
   (((C7_planner_bounds_and_tier_monotonicity 120 40 100 100 (by decide) (by decide)
      (by decide)).2 (by decide)).1).1⟩

theorem super_resolution_resize_dims_eq (fw fh tw th : ℕ) :
    super_resolution_resize_dims fw fh tw th = (tw, th) := by
  unfold super_resolution_resize_dims
  dsimp only
  split_ifs with h
  · rfl
  · push_neg at h
    exact Prod.ext_iff.mpr ⟨h.1, h.2⟩

/-- Whatever the scale-factor dispatch of resize_frame_smart selects, the
produced raster has the aspect-corrected target size p. -/
theorem resize_dispatch_eq (fw fh : ℕ) (p : ℕ × ℕ) (sx sy : ℚ) :
    (if 2 < max sx sy then super_resolution_resize_dims fw fh p.1 p.2
     else if 3/2 < max sx sy then edge_preserving_resize_dims p.1 p.2
     else p) = p := by
  split_ifs with h1 h2
  · rw [super_resolution_resize_dims_eq]
  · rfl
  · rfl

/-- C3 (counterexample): for a 100×100 frame and requested size 10×10,
resize_frame_smart returns a 10×5 raster (the character-aspect correction
halves the height), not the requested 10×10. -/
theorem C3_exact_dims_counterexample :
    resize_frame_smart_dims 100 100 10 10 = (10, 5) ∧
    resize_frame_smart_dims 100 100 10 10 ≠ (10, 10) := by
  have h : resize_frame_smart_dims 100 100 10 10 = (10, 5) := by
    norm_num [resize_frame_smart_dims, super_resolution_resize_dims_eq,
      edge_preserving_resize_dims, pyInt, max_def, min_def]
    decide
  exact ⟨h, by rw [h]; decide⟩

/-- C3 (amended): resize_frame_smart applies the character-aspect
correction to the requested size before resizing: with aspect =
frame_width/frame_height it returns exactly
(out_cols, int(out_cols ÷ aspect × 0.5)) when that corrected height fits in
out_rows, and otherwise (int(out_rows × aspect × 2), out_rows); in both
cases the returned dimensions never exceed the requested ones. -/
theorem resize_frame_smart_dims_characterization (fw fh tw th : ℕ)
    (hfw : 1 ≤ fw) (hfh : 1 ≤ fh) :
    resize_frame_smart_dims fw fh tw th =
      (if (⌊(tw : ℚ) / ((fw : ℚ) / fh) * (1/2)⌋).toNat ≤ th then
        (tw, (⌊(tw : ℚ) / ((fw : ℚ) / fh) * (1/2)⌋).toNat)
      else ((⌊(th : ℚ) * ((fw : ℚ) / fh) * 2⌋).toNat, th)) ∧
    (resize_frame_smart_dims fw fh tw th).1 ≤ tw ∧
    (resize_frame_smart_dims fw fh tw th).2 ≤ th := by
  have hfwq : (0:ℚ) < (fw : ℚ) := by exact_mod_cast hfw
  have hfhq : (0:ℚ) < (fh : ℚ) := by exact_mod_cast hfh
  have ha : (0:ℚ) < (fw : ℚ) / fh := div_pos hfwq hfhq
  have hx0 : (0:ℚ) ≤ (tw : ℚ) / ((fw : ℚ) / fh) * (1/2) := by positivity
  have hy0 : (0:ℚ) ≤ (th : ℚ) * ((fw : ℚ) / fh) / (1/2) := by positivity
  have hEq : resize_frame_smart_dims fw fh tw th =
      (if th < (pyInt ((tw : ℚ) / ((fw : ℚ) / fh) * (1/2))).toNat then
        ((pyInt ((th : ℚ) * ((fw : ℚ) / fh) / (1/2))).toNat, th)
      else (tw, (pyInt ((tw : ℚ) / ((fw : ℚ) / fh) * (1/2))).toNat)) := by
    unfold resize_frame_smart_dims
    dsimp only
    exact resize_dispatch_eq fw fh _ _ _
  have hform : resize_frame_smart_dims fw fh tw th =
      (if (⌊(tw : ℚ) / ((fw : ℚ) / fh) * (1/2)⌋).toNat ≤ th then
        (tw, (⌊(tw : ℚ) / ((fw : ℚ) / fh) * (1/2)⌋).toNat)
      else ((⌊(th : ℚ) * ((fw : ℚ) / fh) * 2⌋).toNat, th)) := by
    rw [hEq, pyInt_of_nonneg hx0, pyInt_of_nonneg hy0]
    have hdiv : (th : ℚ) * ((fw : ℚ) / fh) / (1/2) = (th : ℚ) * ((fw : ℚ) / fh) * 2 := by
      ring
    rw [hdiv]
    rcases le_or_lt ((⌊(tw : ℚ) / ((fw : ℚ) / fh) * (1/2)⌋).toNat) th with hc | hc
    · rw [if_neg (not_lt.mpr hc), if_pos hc]
    · rw [if_pos hc, if_neg (not_le.mpr hc)]
  refine ⟨hform, ?_, ?_⟩
  · rw [hform]
    split_ifs with hc
    · exact le_rfl
    · push_neg at hc
      have hfl0 : 0 ≤ ⌊(tw : ℚ) / ((fw : ℚ) / fh) * (1/2)⌋ := Int.floor_nonneg.mpr hx0
      have hthlt : ((th : ℤ)) < ⌊(tw : ℚ) / ((fw : ℚ) / fh) * (1/2)⌋ := by omega
      have hthq : (th : ℚ) < (tw : ℚ) / ((fw : ℚ) / fh) * (1/2) := by
        have h1 : ((th : ℤ) : ℚ) + 1 ≤ (⌊(tw : ℚ) / ((fw : ℚ) / fh) * (1/2)⌋ : ℚ) := by
          exact_mod_cast hthlt
        have h2 := Int.floor_le ((tw : ℚ) / ((fw : ℚ) / fh) * (1/2))
        push_cast at h1 ⊢
        linarith
      have hmul : (th : ℚ) * ((fw : ℚ) / fh) * 2 < (tw : ℚ) := by
        have h3 : (th : ℚ) * (2 * ((fw : ℚ) / fh)) <
            ((tw : ℚ) / ((fw : ℚ) / fh) * (1/2)) * (2 * ((fw : ℚ) / fh)) :=
          mul_lt_mul_of_pos_right hthq (by positivity)
        have h4 : ((tw : ℚ) / ((fw : ℚ) / fh) * (1/2)) * (2 * ((fw : ℚ) / fh)) = (tw : ℚ) := by
          field_simp
          ring
        rw [h4] at h3
        linarith [h3]
      have hfl : ⌊(th : ℚ) * ((fw : ℚ) / fh) * 2⌋ < ((tw : ℕ) : ℤ) := by
        rw [Int.floor_lt]
        exact_mod_cast hmul
      omega
  · rw [hform]
    split_ifs with hc
    · exact hc
    · exact le_rfl

/-- C3 witness: the amended characterization instantiated at a 3×2 frame
resized toward 7×9. -/
theorem resize_frame_smart_dims_characterization_witness :
    1 ≤ (3:ℕ) ∧ (resize_frame_smart_dims 3 2 7 9).2 ≤ 9 :=
  ⟨by decide,
   (resize_frame_smart_dims_characterization 3 2 7 9 (by decide) (by decide)).2.2⟩

/-- C4 (code bug): calculate_brightness promises normalized values in
[0,1] in its docstring (and the spec requires the brightness transform to
clamp to [0,1]), but with the default luminance strategy a white BGR pixel
(255,255,255) yields brightness 255, far outside [0,1]; the division by
255 happens only later, inside convert_frame_to_ascii. -/
theorem C4_brightness_exceeds_unit_interval :
    calculate_brightness zeroEnhanceEnv ConversionAlgorithm.luminance
      [[{ b := 255, g := 255, r := 255 }]] = [[255]] ∧
    ¬ ((255:ℚ) ≤ 1) := by
  constructor
  · simp only [calculate_brightness, List.map_cons, List.map_nil]
    norm_num
  · norm_num

theorem buffer_step_length_le {α : Type} (cap : ℕ) (hcap : 1 ≤ cap) (buf : List α)
    (op : BufOp α) (h : buf.length ≤ cap) : (buffer_step cap buf op).length ≤ cap := by
  cases op with
  | videoEnq x =>
    by_cases h1 : buf.length < cap
    · have he : buffer_step cap buf (BufOp.videoEnq x) = buf ++ [x] := by
        simp [buffer_step, video_enqueue, qput, h1]
      rw [he]
      simp only [List.length_append, List.length_singleton]
      omega
    · have he : buffer_step cap buf (BufOp.videoEnq x) = buf := by
        simp [buffer_step, video_enqueue, h1]
      rw [he]
      exact h
  | imageEnq x =>
    by_cases h1 : buf.length = 0
    · have hlt : buf.length < cap := by omega
      have he : buffer_step cap buf (BufOp.imageEnq x) = buf ++ [x] := by
        simp [buffer_step, image_enqueue, qput, h1, hlt]
      rw [he]
      simp only [List.length_append, List.length_singleton]
      omega
    · have he : buffer_step cap buf (BufOp.imageEnq x) = buf := by
        simp [buffer_step, image_enqueue, h1]
      rw [he]
      exact h
  | deq =>
    have he : buffer_step cap buf BufOp.deq = buf.tail := rfl
    rw [he]
    have := List.length_tail buf
    omega

theorem buffer_run_length_le_aux {α : Type} (cap : ℕ) (hcap : 1 ≤ cap) :
    ∀ (ops : List (BufOp α)) (buf : List α), buf.length ≤ cap →
      (ops.foldl (buffer_step cap) buf).length ≤ cap := by
  intro ops
  induction ops with
  | nil =>
    intro buf h
    simpa using h
  | cons op ops ih =>
    intro buf h
    simpa using ih _ (buffer_step_length_le cap hcap buf op h)

/-- C5 (counterexample): queue.Queue(maxsize=0) is an unbounded queue in
Python, and buffer_size = 0 passes the configuration validation (config.py
allows 0..100).  With capacity 0 the still-image producer branch, which is
guarded only by qsize() == 0, enqueues one frame, so the buffer size 1
exceeds the configured capacity 0. -/
theorem C5_capacity_zero_counterexample :
    (buffer_run 0 [BufOp.imageEnq (7:ℕ)]).length = 1 ∧
    ¬ (buffer_run 0 [BufOp.imageEnq (7:ℕ)]).length ≤ 0 := by
  decide

/-- C5 (amended): for every configured capacity ≥ 1 and every interleaving
of producer enqueues (video or image path) and consumer dequeues, the
buffer size never exceeds the capacity; and an enqueue attempted on a full
buffer drops the frame both at the producer guard and at the queue's put
(which raises Full after its timeout rather than blocking indefinitely).
For capacity 0 the underlying Python queue is unbounded and the invariant
fails on the image path. -/
theorem C5_capacity_invariant {α : Type} (buffer_size : ℕ) (hcap : 1 ≤ buffer_size) :
    (∀ ops : List (BufOp α), (buffer_run buffer_size ops).length ≤ buffer_size) ∧
    (∀ (buf : List α) (x : α), buf.length = buffer_size →
      video_enqueue buffer_size buf x = buf ∧ qput buffer_size buf x = buf) := by
  constructor
  · intro ops
    exact buffer_run_length_le_aux buffer_size hcap ops [] (by simp)
  · intro buf x hfull
    constructor
    · unfold video_enqueue
      rw [if_neg (by omega)]
    · unfold qput
      rw [if_neg (by omega)]

/-- C5 witness: the invariant instantiated at capacity 3 with a short
enqueue/dequeue interleaving. -/
theorem C5_capacity_invariant_witness :
    1 ≤ 3 ∧
    (buffer_run 3 [BufOp.videoEnq (1:ℕ), BufOp.videoEnq 2, BufOp.deq]).length ≤ 3 :=
  ⟨by decide,
   (C5_capacity_invariant 3 (by decide)).1 [BufOp.videoEnq 1, BufOp.videoEnq 2, BufOp.deq]⟩

theorem threadedChunks_nil_flatten {α : Type} (cs height : ℕ) :
    ∀ (k i : ℕ), height - i ≤ k →
      ((threadedChunks cs height i ([] : List α)).map Prod.snd).flatten = [] := by
  intro k
  induction k with
  | zero =>
    intro i hk
    rw [threadedChunks, dif_neg (by omega)]
    rfl
  | succ k ih =>
    intro i hk
    rw [threadedChunks]
    by_cases h : 0 < cs ∧ i < height
    · rw [dif_pos h]
      simp only [List.map_cons, List.flatten_cons, List.take_nil, List.drop_nil,
        List.nil_append]
      exact ih (i + cs) (by omega)
    · rw [dif_neg h]
      rfl

theorem threadedChunks_flatten {α : Type} (cs height : ℕ) (hcs : 0 < cs) :
    ∀ (k i : ℕ) (l : List α), height - i ≤ k → l.length + i ≤ height →
      ((threadedChunks cs height i l).map Prod.snd).flatten = l := by
  intro k
  induction k with
  | zero =>
    intro i l hk hl
    have hnil : l = [] := List.length_eq_zero.mp (by omega)
    subst hnil
    rw [threadedChunks, dif_neg (by omega)]
    rfl
  | succ k ih =>
    intro i l hk hl
    by_cases hi : i < height
    · rw [threadedChunks, dif_pos ⟨hcs, hi⟩]
      simp only [List.map_cons, List.flatten_cons]
      by_cases hlen : cs ≤ l.length
      · rw [ih (i + cs) (l.drop cs) (by omega) (by simp only [List.length_drop]; omega)]
        exact List.take_append_drop cs l
      · push_neg at hlen
        rw [List.take_of_length_le hlen.le, List.drop_eq_nil_of_le hlen.le]
        rw [threadedChunks_nil_flatten cs height (height - (i + cs)) (i + cs) le_rfl]
        simp
    · rw [threadedChunks, dif_neg (by omega)]
      have hnil : l = [] := List.length_eq_zero.mp (by omega)
      subst hnil
      rfl

theorem convertThreadedLines_single_pass (palette : List Char)
    (brightness : List (List ℚ)) (height chunk_size : ℕ)
    (hcs : 1 ≤ chunk_size) (hlen : brightness.length ≤ height) :
    convertThreadedLines palette brightness height chunk_size =
      convert_frame_chunk palette brightness 0 := by
  unfold convertThreadedLines
  calc ((threadedChunks chunk_size height 0 brightness).map
          (fun chunk => convert_frame_chunk palette chunk.2 chunk.1)).flatten
      = (((threadedChunks chunk_size height 0 brightness).map Prod.snd).map
          (List.map (fun row => String.mk (row.map (fun v => mapChar palette v))))).flatten := by
        rw [List.map_map]
        rfl
    _ = (((threadedChunks chunk_size height 0 brightness).map Prod.snd).flatten).map
          (fun row => String.mk (row.map (fun v => mapChar palette v))) :=
        (List.map_flatten _ _).symm
    _ = brightness.map (fun row => String.mk (row.map (fun v => mapChar palette v))) := by
        rw [threadedChunks_flatten chunk_size height hcs height 0 brightness
          (by omega) (by omega)]
    _ = convert_frame_chunk palette brightness 0 := rfl

/-- C6: for every brightness grid whose row count is covered by the target
height, partitioning the rows into contiguous chunks of any positive
chunk size, mapping the chunks independently and concatenating the
results in submission order is byte-identical to a single-threaded
convert_frame_chunk pass over the whole grid. -/
theorem C6_chunked_mapping_equivalence (palette : List Char)
    (brightness : List (List ℚ)) (height chunk_size : ℕ)
    (hcs : 1 ≤ chunk_size) (hlen : brightness.length ≤ height) :
    String.intercalate newlineStr (convertThreadedLines palette brightness height chunk_size) =
    String.intercalate newlineStr (convert_frame_chunk palette brightness 0) := by
  rw [convertThreadedLines_single_pass palette brightness height chunk_size hcs hlen]

/-- C6 witness: the equivalence instantiated at the MINIMAL palette, a
3-row grid, height 60 and chunk size 2. -/
theorem C6_chunked_mapping_equivalence_witness :
    1 ≤ 2 ∧ ([[(0:ℚ)], [1], [1/2]] : List (List ℚ)).length ≤ 60 ∧
    String.intercalate newlineStr
      (convertThreadedLines MINIMAL.toList [[(0:ℚ)], [1], [1/2]] 60 2) =
    String.intercalate newlineStr
      (convert_frame_chunk MINIMAL.toList [[(0:ℚ)], [1], [1/2]] 0) :=
  ⟨by decide, by decide,
   C6_chunked_mapping_equivalence MINIMAL.toList [[(0:ℚ)], [1], [1/2]] 60 2
     (by decide) (by decide)⟩

theorem change_speed_bounds (s d : ℚ) :
    1/10 ≤ change_speed s d ∧ change_speed s d ≤ 5 :=
  ⟨le_max_left _ _, max_le (by norm_num) (min_le_left _ _)⟩

theorem foldl_speed_bounds (deltas : List ℚ) :
    ∀ s : ℚ, 1/10 ≤ s → s ≤ 5 →
      1/10 ≤ deltas.foldl change_speed s ∧ deltas.foldl change_speed s ≤ 5 := by
  induction deltas with
  | nil =>
    intro s h1 h2
    exact ⟨h1, h2⟩
  | cons d ds ih =>
    intro s h1 h2
    simp only [List.foldl_cons]
    exact ih _ (change_speed_bounds s d).1 (change_speed_bounds s d).2

/-- C8: starting from the initial playback speed 1.0, after every sequence
of change_speed calls with step ±0.1 the speed multiplier remains within
[0.1, 5.0]. -/
theorem C8_speed_bound_invariant (deltas : List ℚ)
    (hsteps : ∀ d ∈ deltas, d = 1/10 ∨ d = -(1/10)) :
    1/10 ≤ run_speed_controls deltas ∧ run_speed_controls deltas ≤ 5 := by
  unfold run_speed_controls
  exact foldl_speed_bounds deltas 1 (by norm_num) (by norm_num)

/-- C8 witness: the invariant instantiated at one speed-up followed by one
slow-down. -/
theorem C8_speed_bound_invariant_witness :
    (∀ d ∈ [(1:ℚ)/10, -(1/10)], d = 1/10 ∨ d = -(1/10)) ∧
    1/10 ≤ run_speed_controls [(1:ℚ)/10, -(1/10)] := by
  have hsteps : ∀ d ∈ [(1:ℚ)/10, -(1/10)], d = 1/10 ∨ d = -(1/10) := by
    intro d hd
    rcases List.mem_cons.mp hd with h | hd2
    · exact Or.inl h
    · exact Or.inr (List.mem_singleton.mp hd2)
  exact ⟨hsteps, (C8_speed_bound_invariant _ hsteps).1⟩

/-- C9: loading a path that does not exist returns False before any state
field is touched, so the playback state is returned unchanged and
is_playing stays False — playback never starts. -/
theorem C9_load_missing_leaves_idle (env : MediaEnv) (st : PlayerState) (p : String)
    (hmiss : env.pathExists p = false) (hidle : st.is_playing = false) :
    load_media env st p = (false, st) ∧
    ((load_media env st p).2).is_playing = false := by
  have h1 : load_media env st p = (false, st) := by
    unfold load_media
    simp [hmiss]
  refine ⟨h1, ?_⟩
  rw [h1]
  exact hidle

/-- C9 witness: loading a missing path in an environment with no files,
from the idle state. -/
theorem C9_load_missing_leaves_idle_witness :
    emptyMediaEnv.pathExists missingPath = false ∧
    idlePlayerState.is_playing = false ∧
    load_media emptyMediaEnv idlePlayerState missingPath = (false, idlePlayerState) :=
  ⟨rfl, rfl,
   (C9_load_missing_leaves_idle emptyMediaEnv idlePlayerState missingPath rfl rfl).1⟩

/-- C10: convert_frame_to_ascii returns the empty string for a missing
(None) frame and for every frame with zero pixels, for every target
width/height, contrast flag, configuration and environment. -/
theorem C10_empty_input_yields_empty_string (env : ConvEnv) (cfg : ConverterConfig)
    (width0 : ℕ) (height0 : Option ℕ) (enhance_contrast : Bool) :
    convert_frame_to_ascii env cfg none width0 height0 enhance_contrast = "" ∧
    ∀ f : Frame, frameSize f = 0 →
      convert_frame_to_ascii env cfg (some f) width0 height0 enhance_contrast = "" := by
  constructor
  · rfl
  · intro f hf
    simp only [convert_frame_to_ascii, hf, if_pos]

/-- C10 witness: a frame with two rows and zero pixels converts to the
empty string. -/
theorem C10_empty_input_yields_empty_string_witness :
    frameSize emptyRowsFrame = 0 ∧
    convert_frame_to_ascii trivialConvEnv minimalConfig (some emptyRowsFrame) 80 none true = "" :=
  ⟨rfl,
   (C10_empty_input_yields_empty_string trivialConvEnv minimalConfig 80 none true).2
     emptyRowsFrame rfl⟩

end AsciiVideo
